import Mathlib

/-!
Shallow embedding of `src/services/python-raw/service.py`: a versioned HTTP
message service consisting of an in-memory `Store` of messages, per-message
CRUD handlers, a cursor-paginated list handler, and a version-aware request
dispatcher with deprecation headers.

Modelling conventions:
* Python `None` becomes `Option.none`; fallible code (uncaught exceptions
  such as `int()` on a bad string or `HTTPMethod()` on an unknown command)
  returns `Option.none` at the level where `handle_one_request`'s
  `try`/`except` turns it into a 500 response.
* `time.time_ns()` / `time.time()` are external clock readings, passed in as
  explicit arguments.
* Python dicts keep insertion order; they are modelled as association lists
  with dict-style insert / set / pop operations.
* Python's `sorted` is a stable sort; it is modelled by a stable insertion
  sort (`sortById`).
* `l[a:b]` slices (with non-negative bounds) are `pySlice`.
-/

namespace MessageService

/-- The `Message` dataclass (service.py lines 13-19).  `author` and `content`
are annotated `str` in Python but handlers pass `body.get(...)`, which may be
`None`, so they are modelled as `Option String`.  `created` / `updated` hold
`time.time_ns()` readings. -/
structure Message where
  id : Nat
  author : Option String
  content : Option String
  created : Nat
  updated : Nat
deriving Repr, DecidableEq

/-- `Message.create` (lines 25-28): stamps `created = updated = now`, where
`now` is the `time.time_ns()` reading taken at creation. -/
def Message.create (id : Nat) (author content : Option String) (now : Nat) : Message :=
  ⟨id, author, content, now, now⟩

/-- The `Store` (lines 34-38): dict `_data` keyed by id (insertion-ordered
association list) plus the `_next_id` counter.  The lock only serialises
concurrent access and has no sequential effect. -/
structure Store where
  nextId : Nat
  data : List (Nat × Message)
deriving Repr, DecidableEq

/-- The freshly constructed store of `Store.__init__`. -/
def Store.empty : Store := ⟨0, []⟩

/-- Python dict assignment `d[k] = v`: replace in place if the key exists,
else append (insertion order). -/
def dictInsert (k : Nat) (v : Message) : List (Nat × Message) → List (Nat × Message)
  | [] => [(k, v)]
  | kv :: rest => if kv.1 = k then (k, v) :: rest else kv :: dictInsert k v rest

/-- `Store.create` (lines 40-46): allocate `_next_id`, increment it, insert
the new message, return it.  The returned pair is (created message, updated
store). -/
def Store.create (st : Store) (author content : Option String) (now : Nat) :
    Message × Store :=
  let id := st.nextId
  let message := Message.create id author content now
  (message, ⟨id + 1, dictInsert id message st.data⟩)

/-- `Store.get` (lines 48-49): `self._data.get(id)`.  The id argument is a
Python `int` (it may be negative when it comes from `int(...)`), while stored
keys are the natural numbers handed out by `create`. -/
def Store.get (st : Store) (id : Int) : Option Message :=
  (st.data.find? (fun kv => (kv.1 : Int) == id)).map (·.2)

/-- `self._data.values()`: messages in dict insertion order. -/
def Store.values (st : Store) : List Message := st.data.map (·.2)

/-- Stable insertion of a message into a list sorted by ascending id:
`m` goes in front of the first element whose id is `≥ m.id`. -/
def insertById (m : Message) : List Message → List Message
  | [] => [m]
  | x :: xs => if x.id < m.id then x :: insertById m xs else m :: x :: xs

/-- Stable sort by ascending id, modelling
`sorted(self._data.values(), key=lambda message: message.id)` (line 53).
Python's `sorted` is stable, and stable sorting by a key is a unique
function, so any stable implementation is extensionally the one Python
computes. -/
def sortById : List Message → List Message
  | [] => []
  | x :: xs => insertById x (sortById xs)

/-- The ascending-by-id snapshot `data` of `Store.list` (line 53). -/
def Store.sortedData (st : Store) : List Message := sortById st.values

/-- Python slice `l[a:b]` for non-negative bounds. -/
def pySlice (l : List α) (a b : Nat) : List α := (l.drop a).take (b - a)

/-- `Store.list` (lines 51-63).  The `for`/`else` scan for the first index
with `value.id >= start` is `findIdx?`; when the loop falls through (no such
record, which also covers the empty snapshot) the method returns
`([], None, [])`, as does the explicit `len(self._data) == 0` early return.
`before = data[max(0, index - limit):index]` uses saturating `Nat`
subtraction for `max(0, ...)`.  NOTE the upper bound of `after` is the
hardcoded `index + 11` from the source (line 62), not `index + limit + 1`. -/
def Store.list (st : Store) (start : Int) (limit : Nat) :
    List Message × Option Message × List Message :=
  if st.data.isEmpty then ([], none, [])
  else
    let data := st.sortedData
    match data.findIdx? (fun m => start ≤ (m.id : Int)) with
    | none => ([], none, [])
    | some index =>
      (pySlice data (index - limit) index,
       data[index]?,
       pySlice data (index + 1) (min data.length (index + 11)))

/-- In-place mutation of the message object found by `self._data.get(id)`
(via `message.field = ...`): rewrite the (unique) matching entry. -/
def updateEntry (id : Int) (f : Message → Message) :
    List (Nat × Message) → List (Nat × Message)
  | [] => []
  | kv :: rest =>
    if (kv.1 : Int) == id then (kv.1, f kv.2) :: rest else kv :: updateEntry id f rest

/-- `Store.put` (lines 65-72): full overwrite of `author` and `content`
(possibly with `None`), refresh `updated` with the clock reading `now`;
`none` when the id is absent. -/
def Store.put (st : Store) (id : Int) (author content : Option String) (now : Nat) :
    Option (Message × Store) :=
  match st.get id with
  | none => none
  | some message =>
    let message := { message with author := author, content := content, updated := now }
    some (message, { st with data := updateEntry id (fun _ => message) st.data })

/-- `Store.patch` (lines 74-81): overwrite only the fields that are not
`None`, always refresh `updated`; `none` when the id is absent. -/
def Store.patch (st : Store) (id : Int) (author content : Option String) (now : Nat) :
    Option (Message × Store) :=
  match st.get id with
  | none => none
  | some message =>
    let message := { message with
      author := match author with | some a => some a | none => message.author,
      content := match content with | some c => some c | none => message.content,
      updated := now }
    some (message, { st with data := updateEntry id (fun _ => message) st.data })

/-- Python `self._data.pop(id, None)`: remove the entry if present, returning
the popped value and the remaining dict. -/
def dictPop (id : Int) : List (Nat × Message) → Option Message × List (Nat × Message)
  | [] => (none, [])
  | kv :: rest =>
    if (kv.1 : Int) == id then (some kv.2, rest)
    else
      let r := dictPop id rest
      (r.1, kv :: r.2)

/-- `Store.delete` (lines 83-85): pop the entry, report whether a removal
occurred. -/
def Store.delete (st : Store) (id : Int) : Bool × Store :=
  let r := dictPop id st.data
  (r.1.isSome, { st with data := r.2 })

/-- `http.HTTPMethod` (the nine standard members of the Python enum). -/
inductive HTTPMethod where
  | get | head | post | put | delete | connect | options | trace | patch
deriving Repr, DecidableEq, BEq

/-- `HTTPMethod(self.command)` (line 178): enum lookup by value.  A string
that is not one of the nine member values raises `ValueError`, modelled as
`none`. -/
def HTTPMethod.ofString : String → Option HTTPMethod
  | "GET" => some .get
  | "HEAD" => some .head
  | "POST" => some .post
  | "PUT" => some .put
  | "DELETE" => some .delete
  | "CONNECT" => some .connect
  | "OPTIONS" => some .options
  | "TRACE" => some .trace
  | "PATCH" => some .patch
  | _ => none

/-- The JSON response bodies the service constructs.  Each constructor is one
of the literal dict shapes appearing in the source: `{"status": "OK"}`,
`message.to_dict()`, the pagination envelope
`{"data": [...], "next": ..., "previous": ...}` (whose `data` holds message
dicts), and `{"error": ...}`. -/
inductive Body where
  | statusOK : Body
  | message (m : Message) : Body
  | page (data : List Message) (next : Option Int) (previous : Option Int) : Body
  | error (msg : String) : Body
deriving Repr, DecidableEq

/-- Named path parameters from `match.groupdict()`. -/
abbrev Params := List (String × String)

/-- Query parameters from `parse_qs` (each key maps to a list of values). -/
abbrev Query := List (String × List String)

/-- A response-header dict. -/
abbrev HeadersT := List (String × String)

/-- A handler's `(STATUS, BODY?, HEADERS?)` result, after the dispatcher's
padding `(list(...) + [None]*2)[:3]` (line 200) fills the omitted
components with `None`. -/
abbrev HandlerResult := Nat × Option Body × Option HeadersT

/-- A parsed JSON request body.  The handlers only ever read the keys
`"author"` and `"content"` via `body.get(...)`; request bodies are modelled
as that pair of optional fields. -/
structure ReqBody where
  author : Option String
  content : Option String
deriving Repr, DecidableEq

/-- Accumulating decimal parse of a digit run (48 is the code of the zero
digit). -/
def natOfDigitsAux (acc : Nat) : List Char → Option Nat
  | [] => some acc
  | c :: cs => if c.isDigit then natOfDigitsAux (10 * acc + (c.toNat - 48)) cs else none

/-- A non-empty run of decimal digits as a natural number. -/
def natOfDigits : List Char → Option Nat
  | [] => none
  | cs => natOfDigitsAux 0 cs

/-- Python `int(s)` on the strings this service feeds it: an optional minus
sign followed by decimal digits; anything else raises `ValueError`, modelled
as `none`.  (Python's `int` additionally tolerates surrounding whitespace, a
leading plus and digit-group underscores; those spellings never reach these
call sites from `parse_qs` values or `\d+` captures.) -/
def pyInt (s : String) : Option Int :=
  match s.toList with
  | [] => none
  | c :: cs =>
    if c = '-' then (natOfDigits cs).map (fun n => -(n : Int))
    else (natOfDigits (c :: cs)).map (fun n => (n : Int))

/-- `int(params[key])`: `none` models both the `KeyError` on a missing key
and the `ValueError` of `int()` on a non-numeric string. -/
def getIntParam (params : Params) (key : String) : Option Int :=
  match params.lookup key with
  | none => none
  | some s => pyInt s

namespace MessageHandlers

/-- `MessageHandlers.create` (lines 89-92): `201 Created` with the new
record.  `body.get(...)` on a missing body (`None`) raises, hence `none`.
`now` is the `time.time_ns()` reading of the nested `Store.create`. -/
def create (store : Store) (_method : HTTPMethod) (_version : Int) (_params : Params)
    (_query : Query) (body : Option ReqBody) (now : Nat) :
    Option (HandlerResult × Store) :=
  match body with
  | none => none
  | some b =>
    let r := store.create b.author b.content now
    some (((201, some (.message r.1), none) : HandlerResult), r.2)

/-- `MessageHandlers.get` (lines 94-99). -/
def get (store : Store) (_method : HTTPMethod) (_version : Int) (params : Params)
    (_query : Query) (_body : Option ReqBody) (_now : Nat) :
    Option (HandlerResult × Store) :=
  match getIntParam params "id" with
  | none => none
  | some id =>
    match store.get id with
    | none =>
      some (((404, some (.error "Message with provided id not found."), none) :
        HandlerResult), store)
    | some message => some (((200, some (.message message), none) : HandlerResult), store)

/-- The body of `MessageHandlers.list` (lines 104-113) after `start` has been
parsed: `limit = 10`, call `store.list`, then build the page envelope.  When
`current is None` the envelope is `{"data": [], "next": None, "previous":
before[0].id if before else None}` (line 107); otherwise `data` is
`[current] + after[0:limit-1]` and `next` is `after[limit-1].id` exactly when
`len(after) == limit` (lines 108-113). -/
def listCore (store : Store) (start : Int) : HandlerResult :=
  let limit := 10
  match store.list start limit with
  | (before, none, _after) =>
    (200, some (.page [] none (before.head?.map (fun m => (m.id : Int)))), none)
  | (before, some current, after) =>
    (200, some (.page (current :: after.take (limit - 1))
      (if after.length = limit then after[limit - 1]?.map (fun m => (m.id : Int)) else none)
      (before.head?.map (fun m => (m.id : Int)))), none)

/-- `MessageHandlers.list` (lines 101-113).  `start` is
`int(query["start"][0]) if "start" in query else 0`; a failing `int()` (or an
impossible empty value list) raises, hence `none`.  (`String.toInt?` accepts
the decimal literals `parse_qs` produces; exotic spellings such as embedded
underscores that Python's `int` also accepts never arise here.) -/
def list (store : Store) (_method : HTTPMethod) (_version : Int) (_params : Params)
    (query : Query) (_body : Option ReqBody) (_now : Nat) :
    Option (HandlerResult × Store) :=
  let start? : Option Int :=
    match query.lookup "start" with
    | none => some 0
    | some vs => vs.head?.bind pyInt
  match start? with
  | none => none
  | some start => some (listCore store start, store)

/-- `MessageHandlers.put` (lines 115-120): full replace via `Store.put` with
`body.get("author")` / `body.get("content")` (which are `None` when the keys
are omitted). -/
def put (store : Store) (_method : HTTPMethod) (_version : Int) (params : Params)
    (_query : Query) (body : Option ReqBody) (now : Nat) :
    Option (HandlerResult × Store) :=
  match body with
  | none => none
  | some b =>
    match getIntParam params "id" with
    | none => none
    | some id =>
      match store.put id b.author b.content now with
      | none =>
        some (((404, some (.error "Message with provided id not found"), none) :
          HandlerResult), store)
      | some r => some (((200, some (.message r.1), none) : HandlerResult), r.2)

/-- `MessageHandlers.patch` (lines 122-127): partial update via
`Store.patch`. -/
def patch (store : Store) (_method : HTTPMethod) (_version : Int) (params : Params)
    (_query : Query) (body : Option ReqBody) (now : Nat) :
    Option (HandlerResult × Store) :=
  match body with
  | none => none
  | some b =>
    match getIntParam params "id" with
    | none => none
    | some id =>
      match store.patch id b.author b.content now with
      | none =>
        some (((404, some (.error "Message with provided id not found"), none) :
          HandlerResult), store)
      | some r => some (((200, some (.message r.1), none) : HandlerResult), r.2)

/-- `MessageHandlers.delete` (lines 129-133): the tuple `(OK,)` is padded to
`(200, None, None)` by the dispatcher. -/
def delete (store : Store) (_method : HTTPMethod) (_version : Int) (params : Params)
    (_query : Query) (_body : Option ReqBody) (_now : Nat) :
    Option (HandlerResult × Store) :=
  match getIntParam params "id" with
  | none => none
  | some id =>
    let r := store.delete id
    if r.1 then some (((200, none, none) : HandlerResult), r.2)
    else
      some (((404, some (.error "Message with provided id not found"), none) :
        HandlerResult), r.2)

end MessageHandlers

/-- The path patterns registered in `main` (lines 252-274).  The service uses
exactly four regexes; each constructor models one of them. -/
inductive PathPat where
  | any          -- r".*"
  | root         -- r"/?"
  | messageRoot  -- r"/message/?"
  | messageId    -- r"/message/(?P<id>\d+)/?"
deriving Repr, DecidableEq

/-- `re.fullmatch(pattern, path)` followed by `match.groupdict()` for the
four registered patterns.  For `messageId`, the path must be `/message/`
followed by one or more digits and an optional trailing slash; the digit run
is captured as the parameter `"id"`.  (`\d` is modelled as ASCII digits; the
service never produces non-ASCII ids.) -/
def PathPat.fullmatch : PathPat → String → Option Params
  | .any, _ => some []
  | .root, p => if p = "" ∨ p = "/" then some [] else none
  | .messageRoot, p => if p = "/message" ∨ p = "/message/" then some [] else none
  | .messageId, p =>
    let cs := p.toList
    if cs.take 9 = "/message/".toList then
      let rest := cs.drop 9
      let core := if rest.getLast? = some '/' then rest.dropLast else rest
      if core ≠ [] ∧ core.all Char.isDigit then some [("id", String.mk core)] else none
    else none

/-- The type of a registered handler: `(STORE, METHOD, VERSION, PARAMS,
QUERY, BODY)` plus the external clock reading, returning the padded result
triple and the (possibly mutated) store, or `none` for an uncaught
exception. -/
abbrev Handler :=
  Store → HTTPMethod → Int → Params → Query → Option ReqBody → Nat →
    Option (HandlerResult × Store)

/-- `router[VERSION][METHOD][PATH_REGEX] = HANDLER` (line 238): nested
insertion-ordered dicts. -/
abbrev Router := List (Int × List (HTTPMethod × List (PathPat × Handler)))

/-- The deprecation table `deprecation[VERSION] = (DEPRECATION_TIME,
SUNSET_TIME)` (line 243), seconds-since-epoch values. -/
abbrev DeprecationTable := List (Int × Int × Int)

/-- The `for`/`else` loop over `request_paths.items()` (lines 190-197):
first pattern whose `fullmatch` succeeds wins. -/
def firstMatch : List (PathPat × Handler) → String → Option (Handler × Params)
  | [], _ => none
  | (pat, h) :: rest, p =>
    match pat.fullmatch p with
    | some params => some (h, params)
    | none => firstMatch rest p

/-- Python dict assignment on a response-header dict (`headers[k] = v`):
replace in place if present, else append. -/
def dictSet (k v : String) : HeadersT → HeadersT
  | [] => [(k, v)]
  | kv :: rest => if kv.1 == k then (k, v) :: rest else kv :: dictSet k v rest

/-- `email.utils.formatdate(timeval, usegmt=True)` (line 205): renders the
sunset time as an HTTP date.  The exact RFC formatting of the Python
standard library is irrelevant to the dispatcher logic (only the header's
presence and its input matter), so it is modelled as a definite injective
rendering of the timestamp. -/
def formatdateGmt (t : Int) : String := "HTTP-date(" ++ toString t ++ ")"

/-- The normalized response emitted by `_respond` (lines 210-222): a status,
the version annotated into the `Content-Type` parameter, the JSON body, and
the extra headers passed by the caller (`_respond` additionally always sends
`Content-Type`, `Cache-Control: no-store` and `Connection: close`, which are
constants and therefore not repeated here). -/
structure Response where
  status : Nat
  version : Option Int
  body : Option Body
  headers : HeadersT

/-- `RequestHandler.handle_one_request` (lines 146-208) from the point where
the request line and JSON body have been read: version resolution, method
check, route matching, handler execution, deprecation-header merge, and the
final `_respond`.  `versionHdr` is the integer (if any) extracted by the
`version=` regex from the `Accept` header (line 172); `command` is the raw
request method string; `path`/`query` are the `urlsplit`/`parse_qs` results;
`body` is the parsed JSON body.  A `none` from `HTTPMethod(...)` or from the
handler models the uncaught exception turned into a 500 by the `except`
(lines 207-208). -/
def handleRequest (router : Router) (deprecation : DeprecationTable) (store : Store)
    (versionHdr : Option Int) (command path : String) (query : Query)
    (body : Option ReqBody) (now : Nat) : Response × Store :=
  match versionHdr with
  | none => (⟨406, none, some (.error "Invalid or missing version."), []⟩, store)
  | some v =>
    match router.lookup v with
    | none => (⟨406, none, some (.error "Invalid or missing version."), []⟩, store)
    | some methodTable =>
      match HTTPMethod.ofString command with
      | none => (⟨500, none, some (.error "Internal error."), []⟩, store)
      | some m =>
        match methodTable.lookup m with
        | none => (⟨405, none, some (.error "Method not allowed."), []⟩, store)
        | some routes =>
          match firstMatch routes path with
          | none => (⟨404, some v, some (.error "Resource not found."), []⟩, store)
          | some (handler, params) =>
            match handler store m v params query body now with
            | none => (⟨500, none, some (.error "Internal error."), []⟩, store)
            | some ((status, rbody, rheaders), store') =>
              let finalHeaders :=
                match deprecation.lookup v with
                | none => rheaders.getD []
                | some dep =>
                  dictSet "Sunset" (formatdateGmt dep.2)
                    (dictSet "Deprecation" ("@" ++ toString dep.1) (rheaders.getD []))
              (⟨status, some v, rbody, finalHeaders⟩, store')

/-- The version 0 handlers (lines 252-256): everything responds `410 Gone`,
the bare tuple `(HTTPStatus.GONE,)` padded to `(410, None, None)`. -/
def goneHandler : Handler := fun store _ _ _ _ _ _ =>
  some (((410, none, none) : HandlerResult), store)

/-- The health-probe handler registered at `GET /?` for versions 1 and 2
(lines 259 and 268). -/
def healthHandler : Handler := fun store _ _ _ _ _ _ =>
  some (((200, some .statusOK, none) : HandlerResult), store)

/-- The version 0 method table (lines 252-256): five methods, each mapping
`r".*"` to the `410 Gone` lambda, in registration order. -/
def retiredTable : List (HTTPMethod × List (PathPat × Handler)) :=
  [(.get, [(.any, goneHandler)]),
   (.post, [(.any, goneHandler)]),
   (.put, [(.any, goneHandler)]),
   (.patch, [(.any, goneHandler)]),
   (.delete, [(.any, goneHandler)])]

/-- The method table registered identically for versions 1 and 2 (lines
258-274).  Method keys appear in first-registration order (GET, POST, PUT,
PATCH, DELETE) and GET's patterns in registration order
(`/?`, `/message/(?P<id>\d+)/?`, `/message/?`). -/
def messageApiTable : List (HTTPMethod × List (PathPat × Handler)) :=
  [(.get, [(.root, healthHandler),
           (.messageId, MessageHandlers.get),
           (.messageRoot, MessageHandlers.list)]),
   (.post, [(.messageRoot, MessageHandlers.create)]),
   (.put, [(.messageId, MessageHandlers.put)]),
   (.patch, [(.messageId, MessageHandlers.patch)]),
   (.delete, [(.messageId, MessageHandlers.delete)])]

/-- The full router built by `main` (lines 240-274). -/
def mainRouter : Router := [(0, retiredTable), (1, messageApiTable), (2, messageApiTable)]

/-- The deprecation table built by `main` (lines 276-279), parameterized by
the startup clock reading `t = int(time.time())`: version 0 was deprecated
thirty days (2592000 s) ago and sunsets now; version 1 is deprecated now and
sunsets in thirty days. -/
def deprecationTable (t : Int) : DeprecationTable :=
  [(0, (t - 2592000, t)), (1, (t, t + 2592000))]

/-- A fixed record with id `i`, used to build concrete stores.  The
pagination claims constrain only the ids, so author/content/timestamps are
fixed representative values. -/
def mkRecord (i : Nat) : Message := ⟨i, some "a", some "x", 0, 0⟩

/-- A store holding records with ids `0 .. n-1` (as produced by `n` creates):
the dict maps each id to its record in insertion order, and `_next_id` is
`n`. -/
def storeN (n : Nat) : Store := ⟨n, (List.range n).map (fun i => (i, mkRecord i))⟩

/-- Projection of the list handler's response to the pair
(page data, next cursor), for stating the pagination round trip.  `listCore`
always returns a page envelope, so the catch-all branch is unreachable. -/
def pageOf (st : Store) (start : Int) : List Message × Option Int :=
  match MessageHandlers.listCore st start with
  | (_, some (.page d next _), _) => (d, next)
  | _ => ([], none)

/-- The client-side pagination loop of the round-trip property: request the
page at `start`, then follow the returned `next` cursor until it is absent,
concatenating the page bodies.  `fuel` bounds the number of requests (any
`fuel > n / 10` suffices for a store of `n` records). -/
def collectPages (st : Store) : Int → Nat → List Message
  | _, 0 => []
  | start, fuel + 1 =>
    (pageOf st start).1 ++
      ((pageOf st start).2.elim [] (fun next => collectPages st next fuel))

/-- A store operation for the id-monotonicity claim: a `create` (tagged with
its `time.time_ns()` reading) or a `delete`. -/
inductive StoreOp where
  | create (author content : Option String) (now : Nat)
  | delete (id : Int)
deriving Repr, DecidableEq

/-- Run a sequence of store operations, returning the final store and the
ids assigned by the `create` calls, in call order. -/
def runOps : Store → List StoreOp → Store × List Nat
  | st, [] => (st, [])
  | st, .create a c t :: ops =>
    let r := st.create a c t
    let rest := runOps r.2 ops
    (rest.1, r.1.id :: rest.2)
  | st, .delete i :: ops => runOps (st.delete i).2 ops

/-- The number of `create` operations in a sequence. -/
def countCreates (ops : List StoreOp) : Nat :=
  ops.countP (fun op => match op with | .create _ _ _ => true | _ => false)

/-! ### Helper lemmas -/

theorem range'_drop (n : Nat) : ∀ (a k : Nat),
    (List.range' a n).drop k = List.range' (a + k) (n - k) := by
  induction n with
  | zero => intro a k; simp
  | succ n ih =>
    intro a k
    cases k with
    | zero => simp
    | succ k =>
      rw [List.range'_succ, List.drop_succ_cons, ih (a + 1) k]
      congr 1 <;> omega

theorem range'_take (n : Nat) : ∀ (a k : Nat),
    (List.range' a n).take k = List.range' a (min k n) := by
  induction n with
  | zero => intro a k; simp
  | succ n ih =>
    intro a k
    cases k with
    | zero => simp
    | succ k =>
      rw [List.range'_succ, List.take_succ_cons, ih (a + 1) k,
        Nat.succ_min_succ, List.range'_succ]

theorem pySlice_map_range' (f : Nat → α) (n a b : Nat) :
    pySlice ((List.range' 0 n).map f) a b =
      (List.range' a (min (b - a) (n - a))).map f := by
  rw [pySlice, ← List.map_drop, ← List.map_take, range'_drop, range'_take, Nat.zero_add]

theorem pySlice_length (l : List α) (a b : Nat) :
    (pySlice l a b).length = min (b - a) (l.length - a) := by
  simp [pySlice]

theorem pySlice_take (l : List α) (a b k : Nat) :
    (pySlice l a b).take k = pySlice l a (min (a + k) b) := by
  rw [pySlice, pySlice, List.take_take]
  congr 1
  omega

theorem pySlice_getElem? (l : List α) (a b j : Nat) (h : j < b - a) :
    (pySlice l a b)[j]? = l[a + j]? := by
  rw [pySlice, List.getElem?_take_of_lt h, List.getElem?_drop]

theorem pySlice_cons (l : List α) (a b : Nat) (ha : a < l.length) (hab : a < b) :
    l[a]? = some (l.get ⟨a, ha⟩) ∧
      l.get ⟨a, ha⟩ :: pySlice l (a + 1) b = pySlice l a b := by
  rw [List.get_eq_getElem]
  refine ⟨List.getElem?_eq_getElem ha, ?_⟩
  rw [pySlice, pySlice, List.drop_eq_getElem_cons ha]
  have hb : b - a = (b - (a + 1)) + 1 := by omega
  rw [hb, List.take_succ_cons]

theorem insertById_perm (m : Message) (l : List Message) :
    (insertById m l).Perm (m :: l) := by
  induction l with
  | nil => simp [insertById]
  | cons x xs ih =>
    rw [insertById]
    by_cases h : x.id < m.id
    · simp only [if_pos h]
      exact (ih.cons x).trans (List.Perm.swap m x xs)
    · simp [if_neg h]

theorem sortById_perm (l : List Message) : (sortById l).Perm l := by
  induction l with
  | nil => simp [sortById]
  | cons x xs ih => exact (insertById_perm x (sortById xs)).trans (ih.cons x)

theorem mem_sortById {a : Message} {l : List Message} : a ∈ sortById l ↔ a ∈ l :=
  (sortById_perm l).mem_iff

theorem sortById_of_pairwise : ∀ (l : List Message),
    l.Pairwise (fun a b => a.id ≤ b.id) → sortById l = l := by
  intro l hl
  induction l with
  | nil => rfl
  | cons x xs ih =>
    rw [sortById, ih (List.Pairwise.sublist (List.sublist_cons_self x xs) hl)]
    cases xs with
    | nil => rfl
    | cons y ys =>
      have hxy : x.id ≤ y.id := (List.pairwise_cons.1 hl).1 y (by simp)
      rw [insertById, if_neg (by omega)]

theorem sortedData_storeN (n : Nat) :
    (storeN n).sortedData = (List.range n).map mkRecord := by
  have hv : (storeN n).values = (List.range n).map mkRecord := by
    simp [storeN, Store.values, List.map_map]
  rw [Store.sortedData, hv]
  apply sortById_of_pairwise
  have hr : (List.range n).Pairwise (· ≤ ·) := by
    rw [List.range_eq_range']
    exact List.pairwise_le_range' 0 n
  exact List.Pairwise.map mkRecord (fun a b h => h) hr

theorem findIdx?_bound {l : List Message} {p : Message → Bool} {i : Nat}
    (h : l.findIdx? p = some i) : i < l.length := by
  obtain ⟨hlt, -⟩ := List.findIdx?_eq_some_iff_getElem.1 h
  exact hlt

theorem findIdx?_mkRecord_range' (n : Nat) : ∀ (a s : Nat), a ≤ s → s < a + n →
    ((List.range' a n).map mkRecord).findIdx?
      (fun m => decide ((s : Int) ≤ (m.id : Int))) = some (s - a) := by
  induction n with
  | zero => intro a s h1 h2; omega
  | succ n ih =>
    intro a s h1 h2
    rw [List.range'_succ, List.map_cons, List.findIdx?_cons]
    by_cases has : a = s
    · subst has
      rw [if_pos (by simp [mkRecord])]
      rw [Nat.sub_self]
    · have hlt : ¬ ((s : Int) ≤ ((mkRecord a).id : Int)) := by
        simp only [mkRecord]
        omega
      rw [if_neg (by simpa using hlt), List.findIdx?_succ,
        ih (a + 1) s (by omega) (by omega)]
      simp only [Option.map_some']
      congr 1
      omega

/-- Unfolding of `Store.list` at limit 10 when the scan finds an index. -/
theorem Store.list_eq_of_findIdx (st : Store) (start : Int) (idx : Nat)
    (h : st.sortedData.findIdx? (fun m => decide (start ≤ (m.id : Int))) = some idx) :
    Store.list st start 10 =
      (pySlice st.sortedData (idx - 10) idx,
       st.sortedData[idx]?,
       pySlice st.sortedData (idx + 1) (min st.sortedData.length (idx + 11))) := by
  have hne : st.data.isEmpty = false := by
    cases hd : st.data with
    | nil =>
      rw [Store.sortedData, Store.values, hd] at h
      simp [sortById] at h
    | cons a l => simp [hd]
  rw [Store.list]
  simp only [hne, Bool.false_eq_true, if_false, h]

/-- One page of the list handler over `storeN n`, starting at `s < n`: the
page body is the ten (or fewer) records from id `s`, and the next cursor is
`s + 10` exactly when at least eleven records remain. -/
theorem pageOf_storeN (n s : Nat) (h : s < n) :
    pageOf (storeN n) (s : Int) =
      ((List.range' s (min (n - s) 10)).map mkRecord,
       if s + 11 ≤ n then some ((s : Int) + 10) else none) := by
  have hfind : (storeN n).sortedData.findIdx?
      (fun m => decide ((s : Int) ≤ (m.id : Int))) = some s := by
    rw [sortedData_storeN, List.range_eq_range']
    simpa using findIdx?_mkRecord_range' n 0 s (Nat.zero_le s) (by omega)
  have hlist := Store.list_eq_of_findIdx (storeN n) (s : Int) s hfind
  rw [sortedData_storeN, List.range_eq_range'] at hlist
  have hlen : ((List.range' 0 n).map mkRecord).length = n := by simp
  have hcur : ((List.range' 0 n).map mkRecord)[s]? = some (mkRecord s) := by
    simp [List.getElem?_range', h]
  have hafter : pySlice ((List.range' 0 n).map mkRecord) (s + 1)
      (min ((List.range' 0 n).map mkRecord).length (s + 11)) =
      (List.range' (s + 1) (min (n - s - 1) 10)).map mkRecord := by
    rw [hlen, pySlice_map_range']
    congr 2
    omega
  rw [hcur, hafter] at hlist
  have htake : ((List.range' (s + 1) (min (n - s - 1) 10)).map mkRecord).take 9 =
      (List.range' (s + 1) (min 9 (min (n - s - 1) 10))).map mkRecord := by
    rw [← List.map_take, range'_take]
  have hchunk : mkRecord s ::
      (List.range' (s + 1) (min 9 (min (n - s - 1) 10))).map mkRecord =
      (List.range' s (min (n - s) 10)).map mkRecord := by
    have he : min (n - s) 10 = (min 9 (min (n - s - 1) 10)) + 1 := by omega
    rw [he, List.range'_succ, List.map_cons]
  have hlen2 : ((List.range' (s + 1) (min (n - s - 1) 10)).map mkRecord).length =
      min (n - s - 1) 10 := by simp
  simp only [pageOf, MessageHandlers.listCore, hlist, htake, hchunk, hlen2]
  by_cases hc : s + 11 ≤ n
  · have h10 : min (n - s - 1) 10 = 10 := by omega
    have hnine : ((List.range' (s + 1) (min (n - s - 1) 10)).map mkRecord)[9]? =
        some (mkRecord (s + 10)) := by
      rw [h10]
      simp [List.getElem?_range']
    simp only [h10, hnine, if_pos rfl, if_pos hc]
    simp [mkRecord]
    omega
  · have h10 : ¬ (min (n - s - 1) 10 = 10) := by omega
    simp only [if_neg h10, if_neg hc]

/-- Following `next` cursors from any in-range start `s` over `storeN n`
collects exactly the records with ids `s .. n-1`, given enough fuel. -/
theorem collectPages_storeN (n : Nat) : ∀ (fuel s : Nat), s < n → n ≤ s + 10 * fuel →
    collectPages (storeN n) (s : Int) fuel = (List.range' s (n - s)).map mkRecord := by
  intro fuel
  induction fuel with
  | zero => intro s h1 h2; omega
  | succ fuel ih =>
    intro s h1 h2
    by_cases hc : s + 11 ≤ n
    · simp only [collectPages, pageOf_storeN n s h1, hc, if_true]
      have hcast : ((s : Int) + 10) = (((s + 10 : Nat) : Nat) : Int) := by push_cast; ring
      rw [Option.elim_some, hcast, ih (s + 10) (by omega) (by omega)]
      rw [← List.map_append]
      have hmin : min (n - s) 10 = 10 := by omega
      rw [hmin, List.range'_append_1]
      congr 2
      omega
    · simp only [collectPages, pageOf_storeN n s h1, hc, if_false]
      rw [Option.elim_none, List.append_nil]
      have hmin : min (n - s) 10 = n - s := by omega
      rw [hmin]

/-- C1: for a Store containing records with ids `0 .. N-1`, repeatedly
calling `page(start=0, size=10)` and then `page(start=returned.next,
size=10)` until `next` is absent yields every record exactly once, in
ascending id order: the concatenation of the page bodies is exactly the
ascending record list. -/
theorem C1_pagination_round_trip (n : Nat) :
    collectPages (storeN n) 0 (n + 1) = (List.range n).map mkRecord := by
  cases n with
  | zero => rfl
  | succ m =>
    have h := collectPages_storeN (m + 1) (m + 2) 0 (by omega) (by omega)
    rw [Nat.cast_zero] at h
    simpa [List.range_eq_range'] using h

/-- C2 counterexample: the claim fails at page size 11.  In a store with
records `0..11` and cursor 0, the current record is record 0 and eleven
records follow it, yet the engine's after-window (hardcoded to
`data[index+1 : index+11]`) captures only 10 of them, so the size-11 next
cursor (`len(after) == 11`) can never be produced. -/
theorem C2_window_counterexample :
    ((storeN 12).sortedData.length = 12 ∧
      (Store.list (storeN 12) 0 11).2.1 = some (mkRecord 0)) ∧
    (Store.list (storeN 12) 0 11).2.2.length = 10 ∧
    ¬ 11 ≤ (Store.list (storeN 12) 0 11).2.2.length := by decide

/-- C2 (amended): at the handler's fixed page size 10, the after-window does
capture at least 10 records following the current record whenever that many
exist, and the next cursor is present exactly when strictly more than 9
records follow the current record. -/
theorem C2_amended_window (st : Store) (start : Int) (idx : Nat)
    (h : st.sortedData.findIdx? (fun m => decide (start ≤ (m.id : Int))) = some idx) :
    (10 ≤ st.sortedData.length - (idx + 1) →
      10 ≤ (Store.list st start 10).2.2.length) ∧
    ((pageOf st start).2.isSome ↔ 10 ≤ st.sortedData.length - (idx + 1)) := by
  have hlt : idx < st.sortedData.length := findIdx?_bound h
  have hlist := Store.list_eq_of_findIdx st start idx h
  have hlen : (pySlice st.sortedData (idx + 1)
      (min st.sortedData.length (idx + 11))).length =
      min (st.sortedData.length - (idx + 1)) 10 := by
    rw [pySlice_length]
    omega
  have hcur : st.sortedData[idx]? = some (st.sortedData.get ⟨idx, hlt⟩) := by
    rw [List.get_eq_getElem]
    exact List.getElem?_eq_getElem hlt
  constructor
  · intro hfoll
    simp only [hlist, hlen]
    omega
  · simp only [pageOf, MessageHandlers.listCore, hlist, hcur]
    by_cases hfull : 10 ≤ st.sortedData.length - (idx + 1)
    · rw [if_pos (by rw [hlen]; omega)]
      have h9 : 9 < (pySlice st.sortedData (idx + 1)
          (min st.sortedData.length (idx + 11))).length := by
        rw [hlen]; omega
      rw [List.getElem?_eq_getElem h9]
      simp [hfull]
    · rw [if_neg (by rw [hlen]; omega)]
      simp [hfull]

/-- C3: whenever the scan finds a current record at position `idx` of the
ascending snapshot, the page body returned by the list handler is the slice
of (at most ten) records at positions `idx .. idx+9`, its length is at most
10, the next cursor is present exactly when the snapshot holds at least
`idx + 11` records (i.e. `after` has exactly ten elements), and a present
next cursor is the id of the record at position `idx + 10` — the first
record not included in the returned page body. -/
theorem C3_page_shape (st : Store) (start : Int) (idx : Nat)
    (h : st.sortedData.findIdx? (fun m => decide (start ≤ (m.id : Int))) = some idx) :
    ∃ next previous,
      MessageHandlers.listCore st start =
        (200, some (.page
          (pySlice st.sortedData idx (min st.sortedData.length (idx + 10)))
          next previous), none) ∧
      (pySlice st.sortedData idx (min st.sortedData.length (idx + 10))).length ≤ 10 ∧
      (next.isSome ↔ idx + 11 ≤ st.sortedData.length) ∧
      (∀ nid, next = some nid →
        (st.sortedData[idx + 10]?).map (fun m => (m.id : Int)) = some nid) := by
  have hlt : idx < st.sortedData.length := findIdx?_bound h
  have hlist := Store.list_eq_of_findIdx st start idx h
  have hcur : st.sortedData[idx]? = some (st.sortedData.get ⟨idx, hlt⟩) := by
    rw [List.get_eq_getElem]
    exact List.getElem?_eq_getElem hlt
  have hlen : (pySlice st.sortedData (idx + 1)
      (min st.sortedData.length (idx + 11))).length =
      min (st.sortedData.length - (idx + 1)) 10 := by
    rw [pySlice_length]
    omega
  have hdata : st.sortedData.get ⟨idx, hlt⟩ ::
      (pySlice st.sortedData (idx + 1) (min st.sortedData.length (idx + 11))).take 9 =
      pySlice st.sortedData idx (min st.sortedData.length (idx + 10)) := by
    rw [pySlice_take]
    have hb : min (idx + 1 + 9) (min st.sortedData.length (idx + 11)) =
        min st.sortedData.length (idx + 10) := by omega
    rw [hb]
    exact (pySlice_cons st.sortedData idx (min st.sortedData.length (idx + 10)) hlt
      (by omega)).2
  refine ⟨(if (pySlice st.sortedData (idx + 1)
        (min st.sortedData.length (idx + 11))).length = 10 then
      (pySlice st.sortedData (idx + 1)
        (min st.sortedData.length (idx + 11)))[9]?.map (fun m => (m.id : Int))
    else none),
    (pySlice st.sortedData (idx - 10) idx).head?.map (fun m => (m.id : Int)),
    ?_, ?_, ?_, ?_⟩
  · simp only [MessageHandlers.listCore, hlist, hcur]
    rw [hdata]
  · rw [pySlice_length]
    omega
  · by_cases hfull : idx + 11 ≤ st.sortedData.length
    · rw [if_pos (by rw [hlen]; omega)]
      have h9 : 9 < (pySlice st.sortedData (idx + 1)
          (min st.sortedData.length (idx + 11))).length := by
        rw [hlen]; omega
      rw [List.getElem?_eq_getElem h9]
      simp [hfull]
    · rw [if_neg (by rw [hlen]; omega)]
      simp [hfull]
  · intro nid hnid
    by_cases hfull : idx + 11 ≤ st.sortedData.length
    · rw [if_pos (by rw [hlen]; omega)] at hnid
      have h9lt : 9 < min st.sortedData.length (idx + 11) - (idx + 1) := by omega
      rw [pySlice_getElem? st.sortedData (idx + 1)
        (min st.sortedData.length (idx + 11)) 9 h9lt] at hnid
      have hidx : idx + 1 + 9 = idx + 10 := by omega
      rw [hidx] at hnid
      exact hnid
    · rw [if_neg (by rw [hlen]; omega)] at hnid
      exact absurd hnid (by simp)

/-- C4: for a non-empty store, a start cursor strictly greater than every
existing id yields an empty page with `previous = None` and `next = None`. -/
theorem C4_out_of_range_cursor (st : Store) (start : Int)
    (hne : st.data ≠ [])
    (hall : ∀ m ∈ st.values, (m.id : Int) < start) :
    MessageHandlers.listCore st start = (200, some (.page [] none none), none) := by
  have hempty : st.data.isEmpty = false := by
    cases hd : st.data with
    | nil => exact absurd hd hne
    | cons a l => simp [hd]
  have hfind : st.sortedData.findIdx? (fun m => decide (start ≤ (m.id : Int))) = none := by
    rw [List.findIdx?_eq_none_iff]
    intro x hx
    have hx2 : x ∈ st.values := mem_sortById.1 hx
    have := hall x hx2
    simp only [decide_eq_false_iff_not]
    omega
  simp only [MessageHandlers.listCore, Store.list, hempty, Bool.false_eq_true, if_false,
    hfind]
  simp

theorem lookup_dictSet_self (k v : String) (l : HeadersT) :
    (dictSet k v l).lookup k = some v := by
  induction l with
  | nil => simp [dictSet, List.lookup]
  | cons kv rest ih =>
    rw [dictSet]
    by_cases hk : (kv.1 == k) = true
    · rw [if_pos hk]
      simp [List.lookup]
    · rw [if_neg hk]
      have hne2 : kv.1 ≠ k := by simpa using hk
      have hk3 : (k == kv.1) = false := beq_eq_false_iff_ne.2 (Ne.symm hne2)
      simp [List.lookup, hk3, ih]

theorem lookup_dictSet_ne (k q v : String) (l : HeadersT) (hne : q ≠ k) :
    (dictSet k v l).lookup q = l.lookup q := by
  have hqk : (q == k) = false := beq_eq_false_iff_ne.2 hne
  induction l with
  | nil => simp [dictSet, List.lookup, hqk]
  | cons kv rest ih =>
    rw [dictSet]
    by_cases hk : (kv.1 == k) = true
    · rw [if_pos hk]
      have hqkv : (q == kv.1) = false := by
        rw [beq_iff_eq.1 hk]
        exact hqk
      simp [List.lookup, hqk, hqkv]
    · rw [if_neg hk]
      cases hkv : (q == kv.1) <;> simp [List.lookup, hkv, ih]

/-- C5 counterexample: version 1 has a Deprecation Entry, yet the
route-not-found response the dispatcher produces for `GET /nope` under
version 1 (resolved version, no handler runs) carries neither `Deprecation`
nor `Sunset` header — the merge at lines 201-205 only runs after a handler
executed, while the 404 at line 196 responds directly. -/
theorem C5_route_not_found_counterexample :
    ((deprecationTable 0).lookup 1).isSome ∧
    (handleRequest mainRouter (deprecationTable 0) Store.empty (some 1)
      "GET" "/nope" [] none 0).1.status = 404 ∧
    ((handleRequest mainRouter (deprecationTable 0) Store.empty (some 1)
      "GET" "/nope" [] none 0).1.headers.lookup "Deprecation") = none ∧
    ((handleRequest mainRouter (deprecationTable 0) Store.empty (some 1)
      "GET" "/nope" [] none 0).1.headers.lookup "Sunset") = none :=
  ⟨rfl, rfl, rfl, rfl⟩

/-- C5 (amended): every response produced by an *executed handler* for a
request whose resolved version has a Deprecation Entry carries both a
`Deprecation` and a `Sunset` header, regardless of what headers the handler
itself set; responses emitted before a handler runs (route-not-found,
method-not-allowed, version errors, internal errors) carry neither. -/
theorem C5_deprecation_on_handler_responses (router : Router) (dep : DeprecationTable)
    (st : Store) (v : Int) (cmd path : String) (q : Query) (b : Option ReqBody)
    (now : Nat) (mt : List (HTTPMethod × List (PathPat × Handler))) (m : HTTPMethod)
    (routes : List (PathPat × Handler)) (handler : Handler) (params : Params)
    (res : HandlerResult) (st2 : Store) (d : Int × Int)
    (hv : router.lookup v = some mt)
    (hm : HTTPMethod.ofString cmd = some m)
    (hr : mt.lookup m = some routes)
    (hp : firstMatch routes path = some (handler, params))
    (hh : handler st m v params q b now = some (res, st2))
    (hd : dep.lookup v = some d) :
    (((handleRequest router dep st (some v) cmd path q b now).1.headers.lookup
      "Deprecation").isSome) ∧
    (((handleRequest router dep st (some v) cmd path q b now).1.headers.lookup
      "Sunset").isSome) := by
  obtain ⟨status, rbody, rheaders⟩ := res
  simp only [handleRequest, hv, hm, hr, hp, hh, hd]
  constructor
  · rw [lookup_dictSet_ne _ _ _ _ (by decide), lookup_dictSet_self]
    rfl
  · rw [lookup_dictSet_self]
    rfl

/-- C6 counterexample: with a successfully negotiated version (1), a request
whose method string is not a recognized HTTP method ("FOO") is answered with
500 Internal Error, not 405: `HTTPMethod(self.command)` raises `ValueError`,
which the catch-all `except` turns into the generic internal error. -/
theorem C6_unknown_method_counterexample :
    (handleRequest mainRouter (deprecationTable 0) Store.empty (some 1)
      "FOO" "/" [] none 0).1.status = 500 ∧
    (handleRequest mainRouter (deprecationTable 0) Store.empty (some 1)
      "FOO" "/" [] none 0).1.status ≠ 405 :=
  ⟨rfl, by decide⟩

/-- C6 (amended): for a request with a successfully negotiated version, if
the method string is a recognized HTTP method that has no entries under that
version, the dispatcher responds 405 Method Not Allowed.  (A string that is
not a recognized HTTP method instead raises inside `HTTPMethod(...)` and is
answered 500.) -/
theorem C6_method_not_allowed (router : Router) (dep : DeprecationTable) (st : Store)
    (v : Int) (cmd path : String) (q : Query) (b : Option ReqBody) (now : Nat)
    (mt : List (HTTPMethod × List (PathPat × Handler))) (m : HTTPMethod)
    (hv : router.lookup v = some mt)
    (hm : HTTPMethod.ofString cmd = some m)
    (hr : mt.lookup m = none) :
    (handleRequest router dep st (some v) cmd path q b now).1.status = 405 := by
  simp only [handleRequest, hv, hm, hr]

/-- C7 counterexample: under version 0 the router only registers GET, POST,
PUT, PATCH and DELETE, so the valid HTTP method HEAD matched against a path
is answered 405, not by a 410 handler. -/
theorem C7_head_counterexample :
    (handleRequest mainRouter (deprecationTable 0) Store.empty (some 0)
      "HEAD" "/anything" [] none 0).1.status = 405 ∧
    (handleRequest mainRouter (deprecationTable 0) Store.empty (some 0)
      "HEAD" "/anything" [] none 0).1.status ≠ 410 :=
  ⟨rfl, by decide⟩

/-- C7 (amended): under version 0, each of the five registered methods (GET,
POST, PUT, PATCH, DELETE) matched against any path resolves to the retired
handler and is answered 410 Gone — never 404; HTTP methods without version-0
entries (e.g. HEAD) are answered 405 instead. -/
theorem C7_version0_gone (cmd : String)
    (hc : cmd = "GET" ∨ cmd = "POST" ∨ cmd = "PUT" ∨ cmd = "PATCH" ∨ cmd = "DELETE")
    (dep : DeprecationTable) (st : Store) (path : String) (q : Query)
    (b : Option ReqBody) (now : Nat) :
    (handleRequest mainRouter dep st (some 0) cmd path q b now).1.status = 410 ∧
    (handleRequest mainRouter dep st (some 0) cmd path q b now).1.status ≠ 404 := by
  have h410 : (handleRequest mainRouter dep st (some 0) cmd path q b now).1.status
      = 410 := by
    rcases hc with h | h | h | h | h <;> subst h <;> rfl
  refine ⟨h410, ?_⟩
  rw [h410]
  decide

theorem runOps_ids (ops : List StoreOp) : ∀ st : Store,
    (runOps st ops).2 = List.range' st.nextId (countCreates ops) := by
  induction ops with
  | nil => intro st; simp [runOps, countCreates]
  | cons op rest ih =>
    intro st
    cases op with
    | create a c t =>
      have hc : countCreates (StoreOp.create a c t :: rest) = countCreates rest + 1 := by
        simp [countCreates, List.countP_cons]
      rw [hc]
      simp only [runOps, Store.create, Message.create]
      rw [ih]
      rw [List.range'_succ]
    | delete i =>
      have hc : countCreates (StoreOp.delete i :: rest) = countCreates rest := by
        simp [countCreates, List.countP_cons]
      rw [hc]
      simp only [runOps, Store.delete]
      rw [ih]

/-- C8: for any sequence of create and delete operations starting from the
fresh store, the ids assigned by the creates are `0, 1, 2, ...` in call
order — starting at 0, strictly increasing, pairwise distinct, and never
reused even after the record holding an id is deleted. -/
theorem C8_id_monotonicity (ops : List StoreOp) :
    (runOps Store.empty ops).2 = List.range (countCreates ops) ∧
    (runOps Store.empty ops).2.Nodup := by
  have h := runOps_ids ops Store.empty
  constructor
  · rw [h, List.range_eq_range']
    rfl
  · rw [h]
    exact List.nodup_range' _ _


theorem get_updateEntry (d : List (Nat × Message)) (i : Int) (f : Message → Message)
    (rec : Message)
    (h : (d.find? (fun kv => (kv.1 : Int) == i)).map (·.2) = some rec) :
    ((updateEntry i f d).find? (fun kv => (kv.1 : Int) == i)).map (·.2) =
      some (f rec) := by
  induction d with
  | nil => simp at h
  | cons kv rest ih =>
    by_cases hk : ((kv.1 : Int) == i) = true
    · rw [@List.find?_cons_of_pos _ (fun kv => (kv.1 : Int) == i) kv rest hk] at h
      simp only [Option.map_some'] at h
      have hrec : kv.2 = rec := Option.some.inj h
      rw [updateEntry, if_pos hk]
      rw [@List.find?_cons_of_pos _ (fun kv => (kv.1 : Int) == i) (kv.1, f kv.2) rest hk]
      simp [hrec]
    · rw [@List.find?_cons_of_neg _ (fun kv => (kv.1 : Int) == i) kv rest hk] at h
      rw [updateEntry, if_neg hk]
      rw [@List.find?_cons_of_neg _ (fun kv => (kv.1 : Int) == i) kv
        (updateEntry i f rest) hk]
      exact ih h

/-- C9: a PATCH of an existing record that supplies only `content` leaves
`author`, `id` and `created` unchanged, sets `content` to the supplied
value, and sets `updated` to the (strictly later, per the monotonic-clock
reading `t`) patch time. -/
theorem C9_patch_content_only (st : Store) (idStr : String) (i : Int) (rec : Message)
    (q : Query) (v : Int) (t : Nat) (c : String)
    (hid : pyInt idStr = some i)
    (hget : st.get i = some rec)
    (hclock : rec.updated < t) :
    ∃ rec2 st2,
      MessageHandlers.patch st .patch v [("id", idStr)] q
          (some ⟨none, some c⟩) t = some ((200, some (.message rec2), none), st2) ∧
      st2.get i = some rec2 ∧
      rec2.author = rec.author ∧ rec2.id = rec.id ∧ rec2.created = rec.created ∧
      rec2.content = some c ∧ rec.updated < rec2.updated := by
  have hparam : getIntParam [("id", idStr)] "id" = some i := by
    simp [getIntParam, List.lookup, hid]
  refine ⟨{ rec with content := some c, updated := t },
    { st with
      data := updateEntry i (fun _ => { rec with content := some c, updated := t }) st.data },
    ?_, ?_, rfl, rfl, rfl, rfl, hclock⟩
  · simp only [MessageHandlers.patch, hparam, Store.patch, hget]
  · have hfind : (st.data.find? (fun kv => (kv.1 : Int) == i)).map (·.2) = some rec := hget
    have := get_updateEntry st.data i
      (fun _ => { rec with content := some c, updated := t }) rec hfind
    exact this

/-- C10: a PUT of an existing record unconditionally writes
`body.get("author")` and `body.get("content")` into the record, for an
arbitrary body: whichever of `author` / `content` the body omits is
overwritten with `None` rather than preserved, and a present field is
overwritten with its supplied value; the request is never rejected, and
`id` and `created` are unchanged. -/
theorem C10_put_overwrites_with_none (st : Store) (idStr : String) (i : Int)
    (rec : Message) (q : Query) (v : Int) (t : Nat) (ba bc : Option String)
    (hid : pyInt idStr = some i)
    (hget : st.get i = some rec) :
    ∃ rec2 st2,
      MessageHandlers.put st .put v [("id", idStr)] q (some ⟨ba, bc⟩) t =
        some ((200, some (.message rec2), none), st2) ∧
      st2.get i = some rec2 ∧
      rec2.author = ba ∧ rec2.content = bc ∧
      rec2.id = rec.id ∧ rec2.created = rec.created := by
  have hparam : getIntParam [("id", idStr)] "id" = some i := by
    simp [getIntParam, List.lookup, hid]
  refine ⟨{ rec with author := ba, content := bc, updated := t },
    { st with
      data := updateEntry i (fun _ => { rec with author := ba, content := bc, updated := t }) st.data },
    ?_, ?_, rfl, rfl, rfl, rfl⟩
  · simp only [MessageHandlers.put, hparam, Store.put, hget]
  · have hfind : (st.data.find? (fun kv => (kv.1 : Int) == i)).map (·.2) = some rec := hget
    exact get_updateEntry st.data i
      (fun _ => { rec with author := ba, content := bc, updated := t }) rec hfind

/-- Witness for C2 (amended): store with ids `0..11`, cursor 0, current
index 0. -/
theorem C2_amended_window_witness :
    (10 ≤ (storeN 12).sortedData.length - (0 + 1) →
      10 ≤ (Store.list (storeN 12) 0 10).2.2.length) ∧
    ((pageOf (storeN 12) 0).2.isSome ↔ 10 ≤ (storeN 12).sortedData.length - (0 + 1)) :=
  C2_amended_window (storeN 12) 0 0 (by decide)

/-- Witness for C3: store with ids `0..11`, cursor 0, current index 0. -/
theorem C3_page_shape_witness :
    ∃ next previous,
      MessageHandlers.listCore (storeN 12) 0 =
        (200, some (.page
          (pySlice (storeN 12).sortedData 0 (min (storeN 12).sortedData.length (0 + 10)))
          next previous), none) ∧
      (pySlice (storeN 12).sortedData 0
        (min (storeN 12).sortedData.length (0 + 10))).length ≤ 10 ∧
      (next.isSome ↔ 0 + 11 ≤ (storeN 12).sortedData.length) ∧
      (∀ nid, next = some nid →
        ((storeN 12).sortedData[0 + 10]?).map (fun m => (m.id : Int)) = some nid) :=
  C3_page_shape (storeN 12) 0 0 (by decide)

/-- Witness for C4: store with ids `0..2` and the out-of-range cursor 3. -/
theorem C4_out_of_range_cursor_witness :
    MessageHandlers.listCore (storeN 3) 3 = (200, some (.page [] none none), none) :=
  C4_out_of_range_cursor (storeN 3) 3 (by decide) (by decide)

/-- Witness for C5 (amended): the health handler under deprecated version 1
returns no headers of its own, yet the response carries both deprecation
headers. -/
theorem C5_deprecation_witness :
    (((handleRequest mainRouter (deprecationTable 0) Store.empty (some 1)
      "GET" "/" [] none 0).1.headers.lookup "Deprecation").isSome) ∧
    (((handleRequest mainRouter (deprecationTable 0) Store.empty (some 1)
      "GET" "/" [] none 0).1.headers.lookup "Sunset").isSome) :=
  C5_deprecation_on_handler_responses mainRouter (deprecationTable 0) Store.empty 1
    "GET" "/" [] none 0 messageApiTable .get
    [(.root, healthHandler), (.messageId, MessageHandlers.get),
      (.messageRoot, MessageHandlers.list)]
    healthHandler [] (200, some .statusOK, none) Store.empty (0, 2592000)
    rfl rfl rfl rfl rfl (by decide)

/-- Witness for C6 (amended): TRACE is a recognized HTTP method with no
version-1 entries, so it is answered 405. -/
theorem C6_method_not_allowed_witness :
    (handleRequest mainRouter (deprecationTable 0) Store.empty (some 1)
      "TRACE" "/" [] none 0).1.status = 405 :=
  C6_method_not_allowed mainRouter (deprecationTable 0) Store.empty 1 "TRACE" "/"
    [] none 0 messageApiTable .trace rfl rfl rfl

/-- Witness for C7 (amended): `GET` of an arbitrary path under version 0. -/
theorem C7_version0_gone_witness :
    (handleRequest mainRouter (deprecationTable 7) (storeN 3) (some 0)
      "GET" "/whatever" [] none 0).1.status = 410 ∧
    (handleRequest mainRouter (deprecationTable 7) (storeN 3) (some 0)
      "GET" "/whatever" [] none 0).1.status ≠ 404 :=
  C7_version0_gone "GET" (Or.inl rfl) (deprecationTable 7) (storeN 3) "/whatever"
    [] none 0

/-- Witness for C9: patch record 0 (updated at 5) with only `content = "z"`
at clock reading 6. -/
theorem C9_patch_content_only_witness :
    ∃ rec2 st2,
      MessageHandlers.patch (⟨1, [(0, ⟨0, some "a", some "x", 5, 5⟩)]⟩ : Store) .patch 1
          [("id", "0")] [] (some ⟨none, some "z"⟩) 6 =
        some ((200, some (.message rec2), none), st2) ∧
      st2.get 0 = some rec2 ∧
      rec2.author = (⟨0, some "a", some "x", 5, 5⟩ : Message).author ∧
      rec2.id = (⟨0, some "a", some "x", 5, 5⟩ : Message).id ∧
      rec2.created = (⟨0, some "a", some "x", 5, 5⟩ : Message).created ∧
      rec2.content = some "z" ∧
      (⟨0, some "a", some "x", 5, 5⟩ : Message).updated < rec2.updated :=
  C9_patch_content_only ⟨1, [(0, ⟨0, some "a", some "x", 5, 5⟩)]⟩ "0" 0
    ⟨0, some "a", some "x", 5, 5⟩ [] 1 6 "z" (by decide) (by decide) (by decide)

/-- Witness for C10: put on record 0 with a body supplying `author = "b"`
but omitting `content` writes the supplied author and wipes `content` to
`None`. -/
theorem C10_put_witness :
    ∃ rec2 st2,
      MessageHandlers.put (⟨1, [(0, ⟨0, some "a", some "x", 5, 5⟩)]⟩ : Store) .put 1
          [("id", "0")] [] (some ⟨some "b", none⟩) 6 =
        some ((200, some (.message rec2), none), st2) ∧
      st2.get 0 = some rec2 ∧
      rec2.author = some "b" ∧ rec2.content = none ∧
      rec2.id = (⟨0, some "a", some "x", 5, 5⟩ : Message).id ∧
      rec2.created = (⟨0, some "a", some "x", 5, 5⟩ : Message).created :=
  C10_put_overwrites_with_none ⟨1, [(0, ⟨0, some "a", some "x", 5, 5⟩)]⟩ "0" 0
    ⟨0, some "a", some "x", 5, 5⟩ [] 1 6 (some "b") none (by decide) (by decide)

end MessageService
